import Mathlib

/-!
Verification development for the acbm assignment engine
(src/acbm/assigning/primary_feasible.py, primary_select.py, work.py).

Dataframes are embedded as lists of records, dictionaries as association
lists in insertion order, and random sampling as an oracle index that
selects a member of the candidate list. Times and weights are rationals.
-/

namespace Acbm

/-- Generic first-minimizer helper: folds over a list keeping the element
with the smallest key, preferring the earlier element on ties. This is the
shared semantics of python min(..., key=...) and of numpy argsort()[:1]
determinized to the first minimal row. -/
def pickMinBy {α : Type} (key : α → ℚ) (x : α) (xs : List α) : α :=
  xs.foldl (fun best a => if key a < key best then a else best) x

theorem pickMinBy_cons {α : Type} (key : α → ℚ) (x a : α) (as : List α) :
    pickMinBy key x (a :: as) = pickMinBy key (if key a < key x then a else x) as := rfl

theorem pickMinBy_mem {α : Type} (key : α → ℚ) (x : α) (xs : List α) :
    pickMinBy key x xs = x ∨ pickMinBy key x xs ∈ xs := by
  induction xs generalizing x with
  | nil => left; rfl
  | cons a as ih =>
    rw [pickMinBy_cons]
    by_cases h : key a < key x
    · simp only [if_pos h]
      rcases ih a with h1 | h1
      · right; rw [h1]; exact List.mem_cons_self a as
      · right; exact List.mem_cons_of_mem a h1
    · simp only [if_neg h]
      rcases ih x with h1 | h1
      · left; exact h1
      · right; exact List.mem_cons_of_mem a h1

theorem pickMinBy_le {α : Type} (key : α → ℚ) (x : α) (xs : List α) :
    key (pickMinBy key x xs) ≤ key x ∧ ∀ a ∈ xs, key (pickMinBy key x xs) ≤ key a := by
  induction xs generalizing x with
  | nil => exact ⟨le_refl _, by intro a ha; cases ha⟩
  | cons a as ih =>
    rw [pickMinBy_cons]
    by_cases h : key a < key x
    · simp only [if_pos h]
      obtain ⟨h1, h2⟩ := ih a
      refine ⟨le_of_lt (lt_of_le_of_lt h1 h), ?_⟩
      intro b hb
      cases hb with
      | head => exact h1
      | tail _ hb2 => exact h2 b hb2
    · simp only [if_neg h]
      obtain ⟨h1, h2⟩ := ih x
      refine ⟨h1, ?_⟩
      intro b hb
      cases hb with
      | head => exact le_trans h1 (le_of_not_lt h)
      | tail _ hb2 => exact h2 b hb2

/-- Generic association-list lookup in insertion order, embedding python
dictionary access. -/
def alistLookup {α β : Type} [DecidableEq α] : List (α × β) → α → Option β
  | [], _ => none
  | e :: rest, k => if k = e.1 then some e.2 else alistLookup rest k

/-! ## Data model: rows of the tables used by the assignment engine -/

/-- One row of the travel_times dataframe restricted to the columns read by
the feasible-zone search: OA21CD_from, OA21CD_to, travel_time_p50. -/
structure TravelTimeRow where
  fromZone : String
  toZone : String
  travelTimeP50 : ℚ
deriving DecidableEq

/-- One row of the activities_per_zone dataframe: OA21CD, counts,
floor_area, activity. -/
structure ActivitiesPerZoneRow where
  zone : String
  counts : ℚ
  floorArea : ℚ
  activity : String
deriving DecidableEq, Inhabited

/-- One row of the activity chains dataframe restricted to the columns read
by the feasible-zone search and the estimate fallback: TripTotalTime,
OA21CD, the activity purpose column, and mode. -/
structure ActivityRow where
  tripTotalTime : ℚ
  originZone : String
  purpose : String
  mode : String
deriving DecidableEq

/-! ## Feasible-zone search, primary_feasible.py -/

/-- Rows of travel_times whose OA21CD_from equals the activity origin. -/
def travel_times_filtered_origin (travelTimes : List TravelTimeRow)
    (originZone : String) : List TravelTimeRow :=
  travelTimes.filter (fun r => r.fromZone == originZone)

/-- Rows of activities_per_zone whose activity equals the activity purpose. -/
def filtered_activities_per_zone (activitiesPerZone : List ActivitiesPerZoneRow)
    (activityPurpose : String) : List ActivitiesPerZoneRow :=
  activitiesPerZone.filter (fun a => a.activity == activityPurpose)

/-- Origin-filtered travel-time rows, further restricted, when
filter_by_activity is set, to destination zones that appear in
activities_per_zone with the activity purpose. -/
def travel_times_filtered_origin_mode (activity : ActivityRow)
    (travelTimes : List TravelTimeRow)
    (activitiesPerZone : List ActivitiesPerZoneRow)
    (filter_by_activity : Bool) : List TravelTimeRow :=
  if filter_by_activity then
    (travel_times_filtered_origin travelTimes activity.originZone).filter
      (fun r => (filtered_activities_per_zone activitiesPerZone activity.purpose).any
        (fun a => a.zone == r.toZone))
  else
    travel_times_filtered_origin travelTimes activity.originZone

/-- The tolerance window test of the feasible-zone search: the row time
lies in the closed interval from reported minus tolerance times reported to
reported plus tolerance times reported. -/
def withinTimeTolerance (travelTime timeTolerance : ℚ) (r : TravelTimeRow) : Bool :=
  decide (travelTime - timeTolerance * travelTime ≤ r.travelTimeP50) &&
  decide (r.travelTimeP50 ≤ travelTime + timeTolerance * travelTime)

/-- Origin- and activity-filtered rows whose time passes the tolerance
window test. -/
def travel_times_filtered_time (activity : ActivityRow)
    (travelTimes : List TravelTimeRow)
    (activitiesPerZone : List ActivitiesPerZoneRow)
    (filter_by_activity : Bool) (time_tolerance : ℚ) : List TravelTimeRow :=
  (travel_times_filtered_origin_mode activity travelTimes activitiesPerZone
    filter_by_activity).filter (withinTimeTolerance activity.tripTotalTime time_tolerance)

/-- The relaxation step: keep the single row whose time has the smallest
absolute difference to the reported time, the earlier row on ties. Empty
input yields an empty result, matching iloc of argsort sliced to one. -/
def closestTimeRows (travelTime : ℚ) : List TravelTimeRow → List TravelTimeRow
  | [] => []
  | r :: rs => [pickMinBy (fun x => |x.travelTimeP50 - travelTime|) r rs]

/-- Embedding of _get_possible_zones from primary_feasible.py: filter the
mode-filtered travel-time rows by origin, optionally by activity supply,
then by the tolerance window; if that is empty, relax to the single closest
row; return the list of destination zones. -/
def _get_possible_zones (activity : ActivityRow) (travelTimes : List TravelTimeRow)
    (activitiesPerZone : List ActivitiesPerZoneRow) (filter_by_activity : Bool)
    (time_tolerance : ℚ) : List String :=
  if (travel_times_filtered_time activity travelTimes activitiesPerZone
      filter_by_activity time_tolerance).isEmpty then
    (closestTimeRows activity.tripTotalTime
      (travel_times_filtered_origin_mode activity travelTimes activitiesPerZone
        filter_by_activity)).map (fun r => r.toZone)
  else
    (travel_times_filtered_time activity travelTimes activitiesPerZone
      filter_by_activity time_tolerance).map (fun r => r.toZone)

/-! ## Work-zone assignment, work.py -/

/-- One entry of activities_to_assign, flattened to the triple iterated by
both strategies: activity id, its origin zone, its feasible zones. -/
structure ActivityAssignment where
  activityId : ℕ
  originId : String
  feasibleZones : List String
deriving DecidableEq

/-- Origin-destination zone pair. -/
abbrev FlowKey := String × String

/-- The actual_flows and remaining_flows dictionaries, in insertion order. -/
abbrev Flows := List (FlowKey × ℤ)

/-- Dictionary read with default zero, embedding the get call with default
used when building weighted zones. -/
def flowGet (flows : Flows) (k : FlowKey) : ℤ := (alistLookup flows k).getD 0

/-- Every entry of a flows dictionary is non-negative. -/
@[reducible] def FlowsNonneg (flows : Flows) : Prop := ∀ e ∈ flows, 0 ≤ e.2

/-- In-place decrement of the entry at a key, embedding the dictionary
subtraction of one performed after a weighted selection. -/
def flowDecrement : Flows → FlowKey → Flows
  | [], _ => []
  | e :: rest, k => if k = e.1 then (e.1, e.2 - 1) :: rest else e :: flowDecrement rest k

/-- Add a value to the entry at a key, inserting the key at the end if
absent, embedding the dictionary accumulation of _calculate_total_flows. -/
def alistInsertAdd : List (String × ℤ) → String → ℤ → List (String × ℤ)
  | [], k, v => [(k, v)]
  | e :: rest, k, v => if k = e.1 then (e.1, e.2 + v) :: rest else e :: alistInsertAdd rest k v

/-- Embedding of _calculate_total_flows: total flow out of each origin. -/
def _calculate_total_flows (actual_flows : Flows) : List (String × ℤ) :=
  actual_flows.foldl (fun acc e => alistInsertAdd acc e.1.1 e.2) []

/-- Embedding of _calculate_percentages: per origin-destination pair, its
share of the total flow out of its origin. -/
def _calculate_percentages (actual_flows : Flows) : List (FlowKey × ℚ) :=
  actual_flows.map (fun e =>
    (e.1, (e.2 : ℚ) / ((alistLookup (_calculate_total_flows actual_flows) e.1.1).getD 0 : ℤ)))

/-- Output row of the iterative strategy. -/
structure IterAssignmentRow where
  activityId : ℕ
  originZone : String
  assignedZone : Option String
  assignmentType : Option String
deriving DecidableEq

/-- Oracle-determinized draw of one member of a non-empty list; the oracle
index stands for the random draw (weighted or uniform). -/
def chooseFrom {α : Type} [Inhabited α] (l : List α) (pick : ℕ) : α :=
  l.getD (pick % l.length) default

/-- The feasible zones of an activity that still have strictly positive
remaining flow from its origin, paired with that flow. -/
def weighted_zones (remaining_flows : Flows) (originId : String)
    (feasible_zones : List String) : List (String × ℤ) :=
  feasible_zones.filterMap (fun zone =>
    if 0 < flowGet remaining_flows (originId, zone) then
      some (zone, flowGet remaining_flows (originId, zone))
    else none)

/-- One iteration of select_work_zone_iterative: weighted selection with
flow decrement when a positive-flow feasible zone exists, else uniform
random selection when random_assignment is set, else a null assignment. -/
def iterativeStep (random_assignment : Bool) (remaining_flows : Flows)
    (a : ActivityAssignment) (pick : ℕ) : Flows × IterAssignmentRow :=
  if a.feasibleZones.isEmpty then
    (remaining_flows, ⟨a.activityId, a.originId, none, none⟩)
  else if (weighted_zones remaining_flows a.originId a.feasibleZones).isEmpty then
    if random_assignment then
      (remaining_flows, ⟨a.activityId, a.originId,
        some (chooseFrom a.feasibleZones pick), some "Random"⟩)
    else
      (remaining_flows, ⟨a.activityId, a.originId, none, none⟩)
  else
    (flowDecrement remaining_flows
        (a.originId, (chooseFrom (weighted_zones remaining_flows a.originId a.feasibleZones) pick).1),
      ⟨a.activityId, a.originId,
        some (chooseFrom (weighted_zones remaining_flows a.originId a.feasibleZones) pick).1,
        some "Weighted"⟩)

/-- The iterative loop, threading remaining_flows and collecting one output
row per processed entry; the counter indexes the oracle draws. -/
def iterativeGo (random_assignment : Bool) (picks : ℕ → ℕ) :
    ℕ → Flows → List ActivityAssignment → Flows × List IterAssignmentRow
  | _, flows, [] => (flows, [])
  | i, flows, a :: rest =>
    ((iterativeGo random_assignment picks (i + 1)
        (iterativeStep random_assignment flows a (picks i)).1 rest).1,
      (iterativeStep random_assignment flows a (picks i)).2 ::
        (iterativeGo random_assignment picks (i + 1)
          (iterativeStep random_assignment flows a (picks i)).1 rest).2)

/-- Embedding of select_work_zone_iterative: remaining_flows starts as a
copy of actual_flows and the loop yields the assignment rows. -/
def select_work_zone_iterative (activities_to_assign : List ActivityAssignment)
    (actual_flows : Flows) (random_assignment : Bool) (picks : ℕ → ℕ) :
    List IterAssignmentRow :=
  (iterativeGo random_assignment picks 0 actual_flows activities_to_assign).2

/-- Output row of the optimization strategy. -/
structure OptAssignmentRow where
  personId : ℕ
  homeZone : String
  assignedZone : String
deriving DecidableEq

/-- The binary-variable keys created for one person: one per feasible zone
whose origin-zone pair is a key of the percentages dictionary. -/
def personVarKeys (actual_flows : Flows) (a : ActivityAssignment) :
    List (ℕ × String × String) :=
  (a.feasibleZones.filter (fun zone =>
    (alistLookup (_calculate_percentages actual_flows) (a.originId, zone)).isSome)).map
    (fun zone => (a.activityId, a.originId, zone))

/-- All binary-variable keys of the optimization problem, in creation
order. -/
def assignment_vars_keys (activities_to_assign : List ActivityAssignment)
    (actual_flows : Flows) : List (ℕ × String × String) :=
  activities_to_assign.flatMap (personVarKeys actual_flows)

/-- A solver outcome assigns a boolean to every binary variable; the
exactly-one-zone constraint is posted for each person with a non-empty
variable list. -/
@[reducible] def ValidSolution (sol : ℕ × String × String → Bool)
    (activities_to_assign : List ActivityAssignment) (actual_flows : Flows) : Prop :=
  ∀ a ∈ activities_to_assign, personVarKeys actual_flows a ≠ [] →
    ((personVarKeys actual_flows a).filter sol).length = 1

/-- Embedding of select_work_zone_optimization downstream of the solver: a
non-optimal status yields an empty result, otherwise one row per binary
variable valued one. -/
def select_work_zone_optimization (activities_to_assign : List ActivityAssignment)
    (actual_flows : Flows) (solverOptimal : Bool)
    (sol : ℕ × String × String → Bool) : List OptAssignmentRow :=
  if solverOptimal then
    ((assignment_vars_keys activities_to_assign actual_flows).filter sol).map
      (fun k => ⟨k.1, k.2.1, k.2.2⟩)
  else []

/-! ## Zone selection, primary_select.py -/

/-- The allowed weighting values of select_zone. -/
def allowed_weightings : List String := ["floor_area", "counts", "none"]

/-- The message of the error raised on an invalid weighting. -/
def invalid_weighting_message (weighting : String) : String :=
  "Invalid value for weighting: " ++ weighting ++
    ". Allowed values are floor_area, counts, none."

/-- Substring test on character lists. -/
def hasSubListChar (needle : List Char) : List Char → Bool
  | [] => needle.isEmpty
  | c :: cs => needle.isPrefixOf (c :: cs) || hasSubListChar needle cs

/-- Embedding of the pandas substring containment test. -/
def strContainsSub (s needle : String) : Bool := hasSubListChar needle.data s.data

/-- Attempt 1 of select_zone: supply rows whose category equals the
activity category and whose zone is feasible. -/
def select_zone_attempt1 (activities_per_zone : List ActivitiesPerZoneRow)
    (educationType : String) (feasibleZones : List String) : List ActivitiesPerZoneRow :=
  activities_per_zone.filter (fun a =>
    a.activity == educationType && feasibleZones.contains a.zone)

/-- Attempt 2 of select_zone: supply rows whose category contains the
string education and whose zone is feasible. -/
def select_zone_attempt2 (activities_per_zone : List ActivitiesPerZoneRow)
    (feasibleZones : List String) : List ActivitiesPerZoneRow :=
  activities_per_zone.filter (fun a =>
    strContainsSub a.activity "education" && feasibleZones.contains a.zone)

/-- Attempt 3 of select_zone: any supply row whose zone is feasible. -/
def select_zone_attempt3 (activities_per_zone : List ActivitiesPerZoneRow)
    (feasibleZones : List String) : List ActivitiesPerZoneRow :=
  activities_per_zone.filter (fun a => feasibleZones.contains a.zone)

/-- Oracle-determinized draw of the zone of one row of the candidate set. -/
def sampleZoneFrom (options : List ActivitiesPerZoneRow) (pick : ℕ) : String :=
  (options.getD (pick % options.length) default).zone

/-- The sampling stage of select_zone: weighting by floor area falls back
to counts and then to uniform when the weights sum to zero; weighting by
counts falls back to uniform; otherwise uniform. Each draw is determinized
by its own oracle index and always yields a member of the candidate set. -/
def sampleZone (weighting : String) (options : List ActivitiesPerZoneRow)
    (pickFloorArea pickCounts pickUniform : ℕ) : String :=
  if weighting == "floor_area" then
    if (options.map (fun a => a.floorArea)).sum ≠ 0 then sampleZoneFrom options pickFloorArea
    else if (options.map (fun a => a.counts)).sum ≠ 0 then sampleZoneFrom options pickCounts
    else sampleZoneFrom options pickUniform
  else if weighting == "counts" then
    if (options.map (fun a => a.counts)).sum ≠ 0 then sampleZoneFrom options pickCounts
    else sampleZoneFrom options pickUniform
  else sampleZoneFrom options pickUniform

/-- The three-attempt cascade and sampling stage of select_zone: sample
from the first non-empty attempt, with the sentinel when even the third
attempt is empty. -/
def select_zone_cascade (educationType : String)
    (activities_per_zone : List ActivitiesPerZoneRow) (weighting : String)
    (feasibleZones : List String) (pickFloorArea pickCounts pickUniform : ℕ) :
    Except String String :=
  if (select_zone_attempt1 activities_per_zone educationType feasibleZones).isEmpty then
    if (select_zone_attempt2 activities_per_zone feasibleZones).isEmpty then
      if (select_zone_attempt3 activities_per_zone feasibleZones).isEmpty then
        .ok "NA"
      else
        .ok (sampleZone weighting (select_zone_attempt3 activities_per_zone feasibleZones)
          pickFloorArea pickCounts pickUniform)
    else
      .ok (sampleZone weighting (select_zone_attempt2 activities_per_zone feasibleZones)
        pickFloorArea pickCounts pickUniform)
  else
    .ok (sampleZone weighting (select_zone_attempt1 activities_per_zone educationType feasibleZones)
      pickFloorArea pickCounts pickUniform)

/-- The body of select_zone after weighting validation: a missing
possible-zones key yields the sentinel (the caught KeyError), an empty
inner dictionary yields the sentinel, else the cascade runs on the zone
list of the first origin entry. -/
def select_zone_body (rowName : ℕ) (educationType : String)
    (possible_zones : List (ℕ × List (String × List String)))
    (activities_per_zone : List ActivitiesPerZoneRow) (weighting : String)
    (pickFloorArea pickCounts pickUniform : ℕ) : Except String String :=
  Option.elim (alistLookup possible_zones rowName) (.ok "NA") (fun innerDict =>
    Option.elim (innerDict.map (fun e => e.2)).head? (.ok "NA") (fun feasibleZones =>
      select_zone_cascade educationType activities_per_zone weighting feasibleZones
        pickFloorArea pickCounts pickUniform))

/-- Embedding of select_zone: validate the weighting first, raising on an
invalid value before any other processing, then run the body. -/
def select_zone (rowName : ℕ) (educationType : String)
    (possible_zones : List (ℕ × List (String × List String)))
    (activities_per_zone : List ActivitiesPerZoneRow) (weighting : String)
    (pickFloorArea pickCounts pickUniform : ℕ) : Except String String :=
  if weighting ∈ allowed_weightings then
    select_zone_body rowName educationType possible_zones activities_per_zone weighting
      pickFloorArea pickCounts pickUniform
  else
    .error (invalid_weighting_message weighting)

/-! ## Facility selection, primary_select.py -/

/-- One row of the facilities GeoDataFrame: id, geometry, zone, the set of
activity categories of the facility, and its floor area. -/
structure FacilityRow where
  id : ℕ
  geometry : String
  zone : String
  types : List String
  floorArea : ℚ
deriving DecidableEq, Inhabited

/-- Facilities located in the destination zone. -/
def facilities_in_zone (facilities_gdf : List FacilityRow)
    (destinationZone : String) : List FacilityRow :=
  facilities_gdf.filter (fun f => f.zone == destinationZone)

/-- Facilities whose category set contains the given type. -/
def facilities_matching_type (rows : List FacilityRow) (activityType : String) :
    List FacilityRow :=
  rows.filter (fun f => f.types.contains activityType)

/-- Step 1 of select_facility: facilities in the destination zone matching
the activity type. -/
def facilities_valid_step1 (facilities_gdf : List FacilityRow) (dz activityType : String) :
    List FacilityRow :=
  facilities_matching_type (facilities_in_zone facilities_gdf dz) activityType

/-- Step 2 of select_facility: when step 1 is empty and neighboring zones
were provided, facilities in any neighboring zone of the destination zone
matching the activity type. -/
def facilities_valid_step2 (facilities_gdf : List FacilityRow) (dz activityType : String)
    (neighboring_zones : List (String × List String)) : List FacilityRow :=
  if (facilities_valid_step1 facilities_gdf dz activityType).isEmpty &&
      !neighboring_zones.isEmpty then
    facilities_matching_type
      (facilities_gdf.filter (fun f =>
        ((alistLookup neighboring_zones dz).getD []).contains f.zone))
      activityType
  else facilities_valid_step1 facilities_gdf dz activityType

/-- Step 3 of select_facility: when still empty and a fallback type was
provided, facilities in the destination zone matching the fallback type. -/
def facilities_valid_step3 (facilities_gdf : List FacilityRow) (dz activityType : String)
    (neighboring_zones : List (String × List String)) (fallbackType : Option String) :
    List FacilityRow :=
  if (facilities_valid_step2 facilities_gdf dz activityType neighboring_zones).isEmpty then
    match fallbackType with
    | some ft => facilities_matching_type (facilities_in_zone facilities_gdf dz) ft
    | none => facilities_valid_step2 facilities_gdf dz activityType neighboring_zones
  else facilities_valid_step2 facilities_gdf dz activityType neighboring_zones

/-- Step 4 of select_facility: when still empty and fallback_to_random is
set, all facilities in the destination zone. -/
def facilities_valid_step4 (facilities_gdf : List FacilityRow) (dz activityType : String)
    (neighboring_zones : List (String × List String)) (fallbackType : Option String)
    (fallback_to_random : Bool) : List FacilityRow :=
  if (facilities_valid_step3 facilities_gdf dz activityType neighboring_zones
      fallbackType).isEmpty && fallback_to_random then
    facilities_in_zone facilities_gdf dz
  else facilities_valid_step3 facilities_gdf dz activityType neighboring_zones fallbackType

/-- The sampling stage of select_facility: floor-area-weighted when the
sample column is floor_area and the areas do not sum to zero, else uniform;
either way the oracle-determinized draw yields a member of the pool. -/
def facilitySample (facilities_valid : List FacilityRow) (sampleCol : Option String)
    (pick : ℕ) : FacilityRow :=
  if sampleCol = some "floor_area" ∧ (facilities_valid.map (fun f => f.floorArea)).sum ≠ 0 then
    facilities_valid.getD (pick % facilities_valid.length) default
  else
    facilities_valid.getD (pick % facilities_valid.length) default

/-- Embedding of select_facility: a missing destination zone short-circuits
to the null result; otherwise the four candidate-pool steps run in order
and one facility of the final pool is sampled, with the null result when
the final pool is empty. Returns the id and geometry of the sampled
facility. -/
def select_facility (destinationZone : Option String) (activityType : String)
    (facilities_gdf : List FacilityRow) (fallbackType : Option String)
    (fallback_to_random : Bool) (neighboring_zones : List (String × List String))
    (sampleCol : Option String) (pick : ℕ) : Option (ℕ × String) :=
  match destinationZone with
  | none => none
  | some dz =>
    if (facilities_valid_step4 facilities_gdf dz activityType neighboring_zones
        fallbackType fallback_to_random).isEmpty then none
    else
      some ((facilitySample (facilities_valid_step4 facilities_gdf dz activityType
          neighboring_zones fallbackType fallback_to_random) sampleCol pick).id,
        (facilitySample (facilities_valid_step4 facilities_gdf dz activityType
          neighboring_zones fallbackType fallback_to_random) sampleCol pick).geometry)

/-! ## Estimate fallback, primary_feasible.py -/

/-- One value of the estimated-times dictionary: per-mode estimates and the
average estimate. -/
structure TimeEstimateEntry where
  timeCar : ℚ
  timePt : ℚ
  timeWalk : ℚ
  timeCycle : ℚ
  timeAverage : ℚ
deriving DecidableEq, Inhabited

/-- The estimated-times dictionary keyed by zone pairs, insertion order. -/
abbrev EstimatedTimes := List ((String × String) × TimeEstimateEntry)

/-- The acceptable modes of _get_zones_using_time_estimate. -/
def acceptable_modes : List String := ["car", "pt", "walk", "cycle"]

/-- The per-mode field read for a validated mode string. -/
def timeForMode (est : TimeEstimateEntry) (mode : String) : ℚ :=
  if mode == "car" then est.timeCar
  else if mode == "pt" then est.timePt
  else if mode == "walk" then est.timeWalk
  else est.timeCycle

/-- Entries of the estimated-times dictionary from the given origin zone to
one of the candidate destination zones. -/
def filtered_estimated_times (estimated_times : EstimatedTimes) (fromZone : String)
    (toZones : List String) : EstimatedTimes :=
  estimated_times.filter (fun it => it.1.1 == fromZone && toZones.contains it.1.2)

/-- The message of the exception python min raises on an empty sequence. -/
def emptyMinMessage : String := "min() arg is an empty sequence"

/-- The python min call over the filtered estimated-times entries keyed by
absolute difference of the selected estimate to the target time: it returns
the destination zone of the first minimizing entry, and on an empty
sequence it raises, which the error value records. -/
def closestZoneBy (key : TimeEstimateEntry → ℚ) (time : ℚ) (filtered : EstimatedTimes) :
    Except String String :=
  match filtered with
  | [] => .error emptyMinMessage
  | e :: rest => .ok (pickMinBy (fun it => |key it.2 - time|) e rest).1.2

/-- Embedding of _get_zones_using_time_estimate: validate the mode, filter
the estimated-times dictionary to the origin and the candidate
destinations, and take the destination whose estimate is closest in
absolute difference to the target time, the earlier entry on ties. An empty
candidate set surfaces the exception python min raises. -/
def _get_zones_using_time_estimate (estimated_times : EstimatedTimes) (fromZone : String)
    (toZones : List String) (time : ℚ) (mode : Option String) : Except String String :=
  match mode with
  | some m =>
    if m ∈ acceptable_modes then
      closestZoneBy (fun est => timeForMode est m) time
        (filtered_estimated_times estimated_times fromZone toZones)
    else .error ("Invalid mode: " ++ m)
  | none =>
    closestZoneBy (fun est => est.timeAverage) time
      (filtered_estimated_times estimated_times fromZone toZones)

/-- Embedding of fill_missing_zones: candidate destinations are the supply
zones matching the activity category; the mode is passed when use_mode is
set, else the average estimate is used. -/
def fill_missing_zones (activity : ActivityRow) (travel_times_est : EstimatedTimes)
    (activities_per_zone : List ActivitiesPerZoneRow) (use_mode : Bool) :
    Except String String :=
  _get_zones_using_time_estimate travel_times_est activity.originZone
    ((filtered_activities_per_zone activities_per_zone activity.purpose).map (fun a => a.zone))
    activity.tripTotalTime (if use_mode then some activity.mode else none)

/-- Reference definition following the specification wording for the
estimate fallback: among supply zones whose category equals the activity
category and that have an estimated-time entry from the activity origin,
return the destination minimizing the absolute difference between the
estimated time (mode-specific when use_mode is set, else the average) and
the reported time, ties broken by iteration order; none when no candidate
exists. -/
def fill_missing_zones_spec (activity : ActivityRow) (travel_times_est : EstimatedTimes)
    (activities_per_zone : List ActivitiesPerZoneRow) (use_mode : Bool) : Option String :=
  match travel_times_est.filter (fun it => it.1.1 == activity.originZone &&
      activities_per_zone.any (fun a => a.activity == activity.purpose && a.zone == it.1.2)) with
  | [] => none
  | e :: rest =>
    some ((pickMinBy (fun it =>
      |(if use_mode then timeForMode it.2 activity.mode else it.2.timeAverage) -
        activity.tripTotalTime|) e rest).1.2)

/-! ## Lemmas on the feasible-zone search -/

theorem withinTimeTolerance_iff (tt tol : ℚ) (r : TravelTimeRow) :
    withinTimeTolerance tt tol r = true ↔ |r.travelTimeP50 - tt| ≤ tol * tt := by
  simp only [withinTimeTolerance, Bool.and_eq_true, decide_eq_true_eq, abs_le]
  constructor
  · rintro ⟨h1, h2⟩; constructor <;> linarith
  · rintro ⟨h1, h2⟩; constructor <;> linarith

theorem closestTimeRows_ne_nil (tt : ℚ) (l : List TravelTimeRow) (h : l ≠ []) :
    closestTimeRows tt l ≠ [] := by
  cases l with
  | nil => exact absurd rfl h
  | cons r rs => simp [closestTimeRows]

theorem closestTimeRows_sub (tt : ℚ) (l : List TravelTimeRow) :
    ∀ m ∈ closestTimeRows tt l,
      m ∈ l ∧ ∀ x ∈ l, |m.travelTimeP50 - tt| ≤ |x.travelTimeP50 - tt| := by
  cases l with
  | nil => intro m hm; cases hm
  | cons r rs =>
    intro m hm
    simp only [closestTimeRows, List.mem_singleton] at hm
    subst hm
    constructor
    · rcases pickMinBy_mem (fun x => |x.travelTimeP50 - tt|) r rs with h | h
      · rw [h]; exact List.mem_cons_self r rs
      · exact List.mem_cons_of_mem r h
    · intro x hx
      obtain ⟨h1, h2⟩ := pickMinBy_le (fun x => |x.travelTimeP50 - tt|) r rs
      cases hx with
      | head => exact h1
      | tail _ hx2 => exact h2 x hx2

theorem travel_times_filtered_time_eq (activity : ActivityRow)
    (travelTimes : List TravelTimeRow) (activitiesPerZone : List ActivitiesPerZoneRow)
    (filter_by_activity : Bool) (t : ℚ) :
    travel_times_filtered_time activity travelTimes activitiesPerZone filter_by_activity t =
      (travel_times_filtered_origin_mode activity travelTimes activitiesPerZone
        filter_by_activity).filter (withinTimeTolerance activity.tripTotalTime t) := rfl

/-- C1 (amended): the candidate list of the feasible-zone search is empty
exactly when the origin-filtered, and under filter_by_activity also
activity-filtered, edge list is empty; whenever one such edge exists the
tolerance-window relaxation keeps the result non-empty. -/
theorem get_possible_zones_empty_iff (activity : ActivityRow)
    (travelTimes : List TravelTimeRow) (activitiesPerZone : List ActivitiesPerZoneRow)
    (filter_by_activity : Bool) (time_tolerance : ℚ) :
    _get_possible_zones activity travelTimes activitiesPerZone filter_by_activity
        time_tolerance = [] ↔
      travel_times_filtered_origin_mode activity travelTimes activitiesPerZone
        filter_by_activity = [] := by
  constructor
  · intro hmap
    by_contra hbase
    rw [_get_possible_zones] at hmap
    by_cases h1 : (travel_times_filtered_time activity travelTimes activitiesPerZone
        filter_by_activity time_tolerance).isEmpty = true
    · rw [if_pos h1] at hmap
      rw [List.map_eq_nil_iff] at hmap
      exact closestTimeRows_ne_nil activity.tripTotalTime _ hbase hmap
    · rw [if_neg h1] at hmap
      rw [List.map_eq_nil_iff] at hmap
      rw [hmap] at h1
      exact h1 rfl
  · intro hbase
    have htf : travel_times_filtered_time activity travelTimes activitiesPerZone
        filter_by_activity time_tolerance = [] := by
      rw [travel_times_filtered_time_eq, hbase]
      rfl
    rw [_get_possible_zones, htf, hbase]
    rfl

/-- C1 (counterexample): an activity whose origin zone has a travel-time
edge, but whose destination has no supply row for the activity purpose,
gets an empty candidate list when filter_by_activity is set, although an
origin-zone edge exists. -/
theorem get_possible_zones_activity_filter_counterexample :
    travel_times_filtered_origin [⟨"A", "B", 10⟩] "A" ≠ [] ∧
    _get_possible_zones ⟨10, "A", "work", "car"⟩ [⟨"A", "B", 10⟩]
      [⟨"B", 1, 1, "shopping"⟩] true (1 / 5) = [] := by
  decide

/-- C1 (witness): with a matching supply row the same configuration yields
a non-empty candidate list. -/
theorem get_possible_zones_empty_iff_witness :
    ¬(_get_possible_zones ⟨10, "A", "work", "car"⟩ [⟨"A", "B", 10⟩]
      [⟨"B", 1, 1, "work"⟩] true (1 / 5) = []) := by
  rw [get_possible_zones_empty_iff]
  decide

/-- C2: for a fixed activity and travel-time table, widening the time
tolerance never removes a zone from the candidate set of the feasible-zone
search, including across the boundary where the window becomes non-empty
and the closest-edge relaxation stops applying. -/
theorem get_possible_zones_tolerance_monotone (activity : ActivityRow)
    (travelTimes : List TravelTimeRow) (activitiesPerZone : List ActivitiesPerZoneRow)
    (filter_by_activity : Bool) (t1 t2 : ℚ) (h12 : t1 ≤ t2)
    (htt : 0 ≤ activity.tripTotalTime) :
    ∀ z ∈ _get_possible_zones activity travelTimes activitiesPerZone filter_by_activity t1,
      z ∈ _get_possible_zones activity travelTimes activitiesPerZone filter_by_activity t2 := by
  intro z hz
  rw [_get_possible_zones] at hz ⊢
  by_cases h1 : (travel_times_filtered_time activity travelTimes activitiesPerZone
      filter_by_activity t1).isEmpty = true
  · rw [if_pos h1] at hz
    rw [List.mem_map] at hz
    obtain ⟨m, hm, rfl⟩ := hz
    obtain ⟨hmbase, hmmin⟩ := closestTimeRows_sub activity.tripTotalTime _ m hm
    by_cases h2 : (travel_times_filtered_time activity travelTimes activitiesPerZone
        filter_by_activity t2).isEmpty = true
    · rw [if_pos h2]
      exact List.mem_map_of_mem _ hm
    · rw [if_neg h2]
      have hne : travel_times_filtered_time activity travelTimes activitiesPerZone
          filter_by_activity t2 ≠ [] := by
        intro hc; rw [hc] at h2; exact h2 rfl
      obtain ⟨f, hf⟩ := List.exists_mem_of_ne_nil _ hne
      rw [travel_times_filtered_time_eq, List.mem_filter] at hf
      obtain ⟨hfbase, hfwin⟩ := hf
      rw [withinTimeTolerance_iff] at hfwin
      have hmwin : withinTimeTolerance activity.tripTotalTime t2 m = true := by
        rw [withinTimeTolerance_iff]
        exact le_trans (hmmin f hfbase) hfwin
      have hm2 : m ∈ travel_times_filtered_time activity travelTimes activitiesPerZone
          filter_by_activity t2 := by
        rw [travel_times_filtered_time_eq, List.mem_filter]
        exact ⟨hmbase, hmwin⟩
      exact List.mem_map_of_mem _ hm2
  · rw [if_neg h1] at hz
    rw [List.mem_map] at hz
    obtain ⟨r, hr, rfl⟩ := hz
    rw [travel_times_filtered_time_eq, List.mem_filter] at hr
    obtain ⟨hrbase, hrwin⟩ := hr
    have hwin2 : withinTimeTolerance activity.tripTotalTime t2 r = true := by
      rw [withinTimeTolerance_iff] at hrwin ⊢
      exact le_trans hrwin (mul_le_mul_of_nonneg_right h12 htt)
    have hr2 : r ∈ travel_times_filtered_time activity travelTimes activitiesPerZone
        filter_by_activity t2 := by
      rw [travel_times_filtered_time_eq, List.mem_filter]
      exact ⟨hrbase, hwin2⟩
    have h2 : ¬(travel_times_filtered_time activity travelTimes activitiesPerZone
        filter_by_activity t2).isEmpty = true := by
      intro hc
      rw [List.isEmpty_iff] at hc
      rw [hc] at hr2
      cases hr2
    rw [if_neg h2]
    exact List.mem_map_of_mem _ hr2

/-- C2 (witness): concrete instance of the tolerance monotonicity, from
tolerance zero to tolerance one. -/
theorem get_possible_zones_tolerance_monotone_witness :
    "B" ∈ _get_possible_zones ⟨10, "A", "work", "car"⟩ [⟨"A", "B", 10⟩] [] false 1 :=
  get_possible_zones_tolerance_monotone ⟨10, "A", "work", "car"⟩ [⟨"A", "B", 10⟩] [] false
    0 1 (by decide) (by decide) "B"
    (by simp [_get_possible_zones, travel_times_filtered_time, travel_times_filtered_origin_mode,
      travel_times_filtered_origin, withinTimeTolerance, List.filter])

/-! ## Lemmas on the work-zone assignment -/

theorem flowGet_cons_self (e : FlowKey × ℤ) (rest : Flows) (k : FlowKey) (hk : k = e.1) :
    flowGet (e :: rest) k = e.2 := by
  rw [flowGet, alistLookup, if_pos hk]
  rfl

theorem flowGet_cons_other (e : FlowKey × ℤ) (rest : Flows) (k : FlowKey) (hk : ¬k = e.1) :
    flowGet (e :: rest) k = flowGet rest k := by
  rw [flowGet, alistLookup, if_neg hk, flowGet]

theorem alistLookup_of_flowGet_pos (flows : Flows) (k : FlowKey)
    (h : 0 < flowGet flows k) : alistLookup flows k = some (flowGet flows k) := by
  rw [flowGet] at h ⊢
  cases hl : alistLookup flows k with
  | none => rw [hl] at h; simp at h
  | some v => rfl

theorem flowDecrement_lookup_self (flows : Flows) (k : FlowKey) (v : ℤ)
    (h : alistLookup flows k = some v) :
    alistLookup (flowDecrement flows k) k = some (v - 1) := by
  induction flows with
  | nil => cases h
  | cons e rest ih =>
    rw [alistLookup] at h
    rw [flowDecrement]
    by_cases hk : k = e.1
    · rw [if_pos hk] at h
      rw [if_pos hk, alistLookup, if_pos hk]
      injection h with h
      rw [h]
    · rw [if_neg hk] at h
      rw [if_neg hk, alistLookup, if_neg hk]
      exact ih h

theorem flowDecrement_lookup_other (flows : Flows) (k k2 : FlowKey) (hne : k2 ≠ k) :
    alistLookup (flowDecrement flows k) k2 = alistLookup flows k2 := by
  induction flows with
  | nil => rfl
  | cons e rest ih =>
    rw [flowDecrement]
    by_cases hk : k = e.1
    · rw [if_pos hk, alistLookup, alistLookup]
      by_cases hk2 : k2 = e.1
      · exact absurd (hk2.trans hk.symm) hne
      · rw [if_neg hk2, if_neg hk2]
    · rw [if_neg hk, alistLookup, alistLookup]
      by_cases hk2 : k2 = e.1
      · rw [if_pos hk2, if_pos hk2]
      · rw [if_neg hk2, if_neg hk2]
        exact ih

theorem flowGet_flowDecrement_self (flows : Flows) (k : FlowKey)
    (h : 0 < flowGet flows k) :
    flowGet (flowDecrement flows k) k = flowGet flows k - 1 := by
  have hl := alistLookup_of_flowGet_pos flows k h
  rw [flowGet, flowDecrement_lookup_self flows k _ hl]
  rfl

theorem flowGet_flowDecrement_other (flows : Flows) (k k2 : FlowKey) (hne : k2 ≠ k) :
    flowGet (flowDecrement flows k) k2 = flowGet flows k2 := by
  rw [flowGet, flowDecrement_lookup_other flows k k2 hne, flowGet]

theorem flowGet_nonneg_of (flows : Flows) (h : FlowsNonneg flows) (k : FlowKey) :
    0 ≤ flowGet flows k := by
  induction flows with
  | nil => rw [flowGet]; simp [alistLookup]
  | cons e rest ih =>
    by_cases hk : k = e.1
    · rw [flowGet_cons_self e rest k hk]
      exact h e (List.mem_cons_self e rest)
    · rw [flowGet_cons_other e rest k hk]
      exact ih (fun x hx => h x (List.mem_cons_of_mem e hx))

theorem flowDecrement_nonneg (flows : Flows) (k : FlowKey) (h : FlowsNonneg flows)
    (hpos : 0 < flowGet flows k) : FlowsNonneg (flowDecrement flows k) := by
  induction flows with
  | nil => exact h
  | cons e rest ih =>
    intro x hx
    rw [flowDecrement] at hx
    by_cases hk : k = e.1
    · rw [if_pos hk] at hx
      cases hx with
      | head =>
        have he2 : flowGet (e :: rest) k = e.2 := flowGet_cons_self e rest k hk
        rw [he2] at hpos
        omega
      | tail _ hx2 => exact h x (List.mem_cons_of_mem e hx2)
    · rw [if_neg hk] at hx
      cases hx with
      | head => exact h e (List.mem_cons_self e rest)
      | tail _ hx2 =>
        have hpos2 : 0 < flowGet rest k := by
          rw [flowGet_cons_other e rest k hk] at hpos
          exact hpos
        exact ih (fun y hy => h y (List.mem_cons_of_mem e hy)) hpos2 x hx2

theorem weighted_zones_mem (remaining_flows : Flows) (originId : String)
    (feasible_zones : List String) (p : String × ℤ)
    (h : p ∈ weighted_zones remaining_flows originId feasible_zones) :
    p.1 ∈ feasible_zones ∧ 0 < p.2 ∧ flowGet remaining_flows (originId, p.1) = p.2 := by
  rw [weighted_zones, List.mem_filterMap] at h
  obtain ⟨zone, hz, hf⟩ := h
  by_cases hpos : 0 < flowGet remaining_flows (originId, zone)
  · rw [if_pos hpos] at hf
    injection hf with hf
    subst hf
    exact ⟨hz, hpos, rfl⟩
  · rw [if_neg hpos] at hf
    cases hf

theorem chooseFrom_mem {α : Type} [Inhabited α] (l : List α) (pick : ℕ) (h : l ≠ []) :
    chooseFrom l pick ∈ l := by
  rw [chooseFrom]
  have hlen : pick % l.length < l.length :=
    Nat.mod_lt _ (List.length_pos.mpr h)
  rw [List.getD_eq_getElem?_getD, List.getElem?_eq_getElem hlen]
  exact List.getElem_mem hlen

theorem iterativeStep_nonneg (random_assignment : Bool) (flows : Flows)
    (a : ActivityAssignment) (pick : ℕ) (h : FlowsNonneg flows) :
    FlowsNonneg (iterativeStep random_assignment flows a pick).1 := by
  rw [iterativeStep]
  by_cases h1 : a.feasibleZones.isEmpty = true
  · rw [if_pos h1]; exact h
  · rw [if_neg h1]
    by_cases h2 : (weighted_zones flows a.originId a.feasibleZones).isEmpty = true
    · rw [if_pos h2]
      cases random_assignment with
      | false => exact h
      | true => exact h
    · rw [if_neg h2]
      have hne : weighted_zones flows a.originId a.feasibleZones ≠ [] := by
        intro hc; rw [hc] at h2; exact h2 rfl
      have hmem := chooseFrom_mem _ pick hne
      obtain ⟨_, hpos, hget⟩ := weighted_zones_mem flows a.originId a.feasibleZones _ hmem
      exact flowDecrement_nonneg flows _ h (by rw [hget]; exact hpos)

theorem iterativeGo_nonneg (random_assignment : Bool) (picks : ℕ → ℕ) (i : ℕ)
    (flows : Flows) (acts : List ActivityAssignment) (h : FlowsNonneg flows) :
    FlowsNonneg (iterativeGo random_assignment picks i flows acts).1 := by
  induction acts generalizing i flows with
  | nil => exact h
  | cons a rest ih =>
    rw [iterativeGo]
    exact ih (i + 1) _ (iterativeStep_nonneg random_assignment flows a (picks i) h)

theorem iterativeGo_length (random_assignment : Bool) (picks : ℕ → ℕ) (i : ℕ)
    (flows : Flows) (acts : List ActivityAssignment) :
    (iterativeGo random_assignment picks i flows acts).2.length = acts.length := by
  induction acts generalizing i flows with
  | nil => rfl
  | cons a rest ih =>
    rw [iterativeGo, List.length_cons, List.length_cons]
    rw [ih]

theorem alistLookup_map_isSome {α β γ : Type} [DecidableEq α] (l : List (α × β))
    (g : α × β → γ) (k : α) :
    (alistLookup (l.map (fun e => (e.1, g e))) k).isSome = (alistLookup l k).isSome := by
  induction l with
  | nil => rfl
  | cons e rest ih =>
    rw [List.map_cons, alistLookup, alistLookup]
    by_cases hk : k = e.1
    · rw [if_pos hk, if_pos hk]
      rfl
    · rw [if_neg hk, if_neg hk]
      exact ih

theorem percentages_key_iff (actual_flows : Flows) (k : FlowKey) :
    (alistLookup (_calculate_percentages actual_flows) k).isSome =
      (alistLookup actual_flows k).isSome := by
  rw [_calculate_percentages]
  exact alistLookup_map_isSome actual_flows _ k

theorem personVarKeys_mem (actual_flows : Flows) (a : ActivityAssignment)
    (k : ℕ × String × String) (h : k ∈ personVarKeys actual_flows a) :
    k.1 = a.activityId ∧ k.2.1 = a.originId ∧ k.2.2 ∈ a.feasibleZones ∧
      (alistLookup actual_flows (a.originId, k.2.2)).isSome = true := by
  rw [personVarKeys, List.mem_map] at h
  obtain ⟨zone, hz, rfl⟩ := h
  rw [List.mem_filter] at hz
  obtain ⟨hz1, hz2⟩ := hz
  rw [percentages_key_iff] at hz2
  exact ⟨rfl, rfl, hz1, hz2⟩

/-- C4: in one iteration of the iterative work-zone strategy, a weighted
selection of a zone decrements the remaining flow of exactly the chosen
origin-destination pair by one and leaves every other entry unchanged, a
non-weighted outcome leaves remaining_flows entirely unchanged, and
non-negativity of remaining_flows is preserved both by the single step and
by the whole loop, because only strictly-positive-flow pairs are eligible
for weighted selection. -/
theorem remaining_flows_invariant (random_assignment : Bool) (flows : Flows)
    (a : ActivityAssignment) (pick : ℕ) (hnn : FlowsNonneg flows) :
    ((iterativeStep random_assignment flows a pick).2.assignmentType = some "Weighted" →
      ∃ z, (iterativeStep random_assignment flows a pick).2.assignedZone = some z ∧
        flowGet (iterativeStep random_assignment flows a pick).1 (a.originId, z) =
          flowGet flows (a.originId, z) - 1 ∧
        ∀ k, k ≠ (a.originId, z) →
          flowGet (iterativeStep random_assignment flows a pick).1 k = flowGet flows k) ∧
    ((iterativeStep random_assignment flows a pick).2.assignmentType ≠ some "Weighted" →
      (iterativeStep random_assignment flows a pick).1 = flows) ∧
    FlowsNonneg (iterativeStep random_assignment flows a pick).1 ∧
    (∀ picks : ℕ → ℕ, ∀ i : ℕ, ∀ acts : List ActivityAssignment,
      FlowsNonneg (iterativeGo random_assignment picks i flows acts).1) := by
  refine ⟨?_, ?_, iterativeStep_nonneg random_assignment flows a pick hnn,
    fun picks i acts => iterativeGo_nonneg random_assignment picks i flows acts hnn⟩
  · rw [iterativeStep]
    by_cases h1 : a.feasibleZones.isEmpty = true
    · rw [if_pos h1]
      intro hw
      cases hw
    · rw [if_neg h1]
      by_cases h2 : (weighted_zones flows a.originId a.feasibleZones).isEmpty = true
      · rw [if_pos h2]
        cases random_assignment with
        | false => intro hw; cases hw
        | true =>
          intro hw
          rw [if_pos rfl] at hw
          simp at hw
      · rw [if_neg h2]
        intro _
        have hne : weighted_zones flows a.originId a.feasibleZones ≠ [] := by
          intro hc; rw [hc] at h2; exact h2 rfl
        have hmem := chooseFrom_mem (weighted_zones flows a.originId a.feasibleZones) pick hne
        obtain ⟨_, hpos, hget⟩ := weighted_zones_mem flows a.originId a.feasibleZones _ hmem
        refine ⟨(chooseFrom (weighted_zones flows a.originId a.feasibleZones) pick).1,
          rfl, ?_, ?_⟩
        · exact flowGet_flowDecrement_self flows _ (by rw [hget]; exact hpos)
        · intro k hk
          exact flowGet_flowDecrement_other flows _ k hk
  · rw [iterativeStep]
    by_cases h1 : a.feasibleZones.isEmpty = true
    · rw [if_pos h1]
      intro _
      rfl
    · rw [if_neg h1]
      by_cases h2 : (weighted_zones flows a.originId a.feasibleZones).isEmpty = true
      · rw [if_pos h2]
        cases random_assignment with
        | false => intro _; rfl
        | true => intro _; rw [if_pos rfl]
      · rw [if_neg h2]
        intro hw
        exact absurd rfl hw

/-- C4 (witness): concrete weighted step on a single positive-flow pair
preserves non-negativity of remaining_flows. -/
theorem remaining_flows_invariant_witness :
    FlowsNonneg (iterativeStep false [(("A", "B"), 5)] ⟨1, "A", ["B"]⟩ 0).1 :=
  (remaining_flows_invariant false [(("A", "B"), 5)] ⟨1, "A", ["B"]⟩ 0 (by decide)).2.2.1

/-- C3 (counterexample): with one activity whose only feasible zone has no
recorded census flow, the iterative strategy emits one null-assigned row
but the optimization strategy creates no binary variable for the activity
and emits zero rows even on an optimal solve, so its output row count is
not the number of input activities. -/
theorem work_zone_row_counts_counterexample :
    ValidSolution (fun _ => true) [⟨1, "A", ["B"]⟩] [] ∧
    (select_work_zone_iterative [⟨1, "A", ["B"]⟩] [] false (fun _ => 0)).length = 1 ∧
    (select_work_zone_optimization [⟨1, "A", ["B"]⟩] [] true (fun _ => true)).length = 0 := by
  refine ⟨?_, ?_, ?_⟩
  · decide
  · decide
  · decide

/-- C3 (amended): the iterative strategy emits exactly one output row per
input activity entry, null-assigned when unassignable; the optimization
strategy, under any solver outcome satisfying the exactly-one-zone
constraint, emits exactly one row per activity having at least one binary
variable, so activities with no feasible destination among the recorded
flows are dropped from its output rather than kept as null rows. -/
theorem work_zone_row_counts (activities_to_assign : List ActivityAssignment)
    (actual_flows : Flows) (random_assignment : Bool) (picks : ℕ → ℕ)
    (sol : ℕ × String × String → Bool)
    (hsol : ValidSolution sol activities_to_assign actual_flows) :
    (select_work_zone_iterative activities_to_assign actual_flows random_assignment
        picks).length = activities_to_assign.length ∧
    (select_work_zone_optimization activities_to_assign actual_flows true sol).length =
      (activities_to_assign.filter
        (fun a => !(personVarKeys actual_flows a).isEmpty)).length := by
  constructor
  · exact iterativeGo_length random_assignment picks 0 actual_flows activities_to_assign
  · rw [select_work_zone_optimization, if_pos rfl, List.length_map, assignment_vars_keys]
    induction activities_to_assign with
    | nil => rfl
    | cons a rest ih =>
      have hsolr : ValidSolution sol rest actual_flows :=
        fun x hx => hsol x (List.mem_cons_of_mem a hx)
      rw [List.flatMap_cons, List.filter_append, List.length_append, ih hsolr,
        List.filter_cons]
      by_cases hemp : (personVarKeys actual_flows a).isEmpty = true
      · have hnil : personVarKeys actual_flows a = [] := by
          rw [List.isEmpty_iff] at hemp; exact hemp
        rw [hnil]
        simp [hemp]
      · have hone := hsol a (List.mem_cons_self a rest)
        have hne : personVarKeys actual_flows a ≠ [] := by
          intro hc; rw [hc] at hemp; exact hemp rfl
        rw [hone hne]
        simp [hemp]
        omega

/-- C3 (witness): concrete instance of the row-count theorem with one
activity whose feasible zone has a recorded flow. -/
theorem work_zone_row_counts_witness :
    (select_work_zone_iterative [⟨1, "A", ["B"]⟩] [(("A", "B"), 5)] false
        (fun _ => 0)).length = 1 ∧
    (select_work_zone_optimization [⟨1, "A", ["B"]⟩] [(("A", "B"), 5)] true
        (fun k => decide (k = (1, "A", "B")))).length =
      (([⟨1, "A", ["B"]⟩] : List ActivityAssignment).filter
        (fun a => !(personVarKeys [(("A", "B"), 5)] a).isEmpty)).length :=
  work_zone_row_counts [⟨1, "A", ["B"]⟩] [(("A", "B"), 5)] false (fun _ => 0)
    (fun k => decide (k = (1, "A", "B"))) (by decide)

/-- C8: a binary assignment variable exists for a person-origin-zone triple
only when the origin-zone pair is a key of actual_flows; hence every row of
the optimization output names an origin-destination pair recorded in
actual_flows, and an activity none of whose feasible destinations has a
recorded flow contributes no output row, for every solver outcome. -/
theorem optimization_flow_key_invariant (activities_to_assign : List ActivityAssignment)
    (actual_flows : Flows) (solverOptimal : Bool) (sol : ℕ × String × String → Bool)
    (hids : (activities_to_assign.map (fun a => a.activityId)).Nodup) :
    (∀ k ∈ assignment_vars_keys activities_to_assign actual_flows,
      (alistLookup actual_flows (k.2.1, k.2.2)).isSome = true) ∧
    (∀ r ∈ select_work_zone_optimization activities_to_assign actual_flows
        solverOptimal sol,
      (alistLookup actual_flows (r.homeZone, r.assignedZone)).isSome = true) ∧
    (∀ a ∈ activities_to_assign,
      (∀ z ∈ a.feasibleZones, alistLookup actual_flows (a.originId, z) = none) →
      ∀ r ∈ select_work_zone_optimization activities_to_assign actual_flows
          solverOptimal sol,
        r.personId ≠ a.activityId) := by
  have hkeys : ∀ k ∈ assignment_vars_keys activities_to_assign actual_flows,
      ∃ a ∈ activities_to_assign, k.1 = a.activityId ∧ k.2.1 = a.originId ∧
        k.2.2 ∈ a.feasibleZones ∧
        (alistLookup actual_flows (a.originId, k.2.2)).isSome = true := by
    intro k hk
    rw [assignment_vars_keys, List.mem_flatMap] at hk
    obtain ⟨a, ha, hka⟩ := hk
    exact ⟨a, ha, personVarKeys_mem actual_flows a k hka⟩
  have hrows : ∀ r ∈ select_work_zone_optimization activities_to_assign actual_flows
      solverOptimal sol,
      ∃ k ∈ assignment_vars_keys activities_to_assign actual_flows,
        r = ⟨k.1, k.2.1, k.2.2⟩ := by
    intro r hr
    rw [select_work_zone_optimization] at hr
    by_cases hopt : solverOptimal = true
    · rw [if_pos hopt, List.mem_map] at hr
      obtain ⟨k, hk, rfl⟩ := hr
      rw [List.mem_filter] at hk
      exact ⟨k, hk.1, rfl⟩
    · rw [if_neg hopt] at hr
      cases hr
  refine ⟨?_, ?_, ?_⟩
  · intro k hk
    obtain ⟨a, _, _, hko, _, hsome⟩ := hkeys k hk
    rw [hko]
    exact hsome
  · intro r hr
    obtain ⟨k, hk, rfl⟩ := hrows r hr
    obtain ⟨a, _, _, hko, _, hsome⟩ := hkeys k hk
    show (alistLookup actual_flows (k.2.1, k.2.2)).isSome = true
    rw [hko]
    exact hsome
  · intro a ha hnone r hr hpid
    obtain ⟨k, hk, rfl⟩ := hrows r hr
    rw [assignment_vars_keys, List.mem_flatMap] at hk
    obtain ⟨a2, ha2, hka2⟩ := hk
    obtain ⟨hid2, _, hz2, hsome2⟩ := personVarKeys_mem actual_flows a2 k hka2
    have haa : a2 = a :=
      List.inj_on_of_nodup_map hids ha2 ha (by rw [← hid2]; exact hpid)
    subst haa
    rw [hnone k.2.2 hz2] at hsome2
    cases hsome2

/-- C8 (witness): concrete instance in which the single output row of an
optimal solve names the recorded flow pair. -/
theorem optimization_flow_key_invariant_witness :
    (alistLookup [(("A", "B"), 5)] (("A", "B") : FlowKey)).isSome = true :=
  (optimization_flow_key_invariant [⟨1, "A", ["B"]⟩] [(("A", "B"), 5)] true
    (fun _ => true) (by decide)).2.1 ⟨1, "A", "B"⟩ (by decide)

/-! ## Lemmas on zone selection -/

theorem sampleZoneFrom_mem (options : List ActivitiesPerZoneRow) (pick : ℕ)
    (h : options ≠ []) :
    sampleZoneFrom options pick ∈ options.map (fun a => a.zone) := by
  rw [sampleZoneFrom]
  apply List.mem_map_of_mem
  have hlen : pick % options.length < options.length :=
    Nat.mod_lt _ (List.length_pos.mpr h)
  rw [List.getD_eq_getElem?_getD, List.getElem?_eq_getElem hlen]
  exact List.getElem_mem hlen

theorem sampleZone_mem (weighting : String) (options : List ActivitiesPerZoneRow)
    (p1 p2 p3 : ℕ) (h : options ≠ []) :
    sampleZone weighting options p1 p2 p3 ∈ options.map (fun a => a.zone) := by
  rw [sampleZone]
  split_ifs <;> exact sampleZoneFrom_mem options _ h

theorem attempt1_zone_sub (activities_per_zone : List ActivitiesPerZoneRow)
    (educationType : String) (feasibleZones : List String) :
    ∀ z ∈ (select_zone_attempt1 activities_per_zone educationType feasibleZones).map
        (fun a => a.zone),
      z ∈ (select_zone_attempt3 activities_per_zone feasibleZones).map (fun a => a.zone) := by
  intro z hz
  rw [List.mem_map] at hz ⊢
  obtain ⟨a, ha, rfl⟩ := hz
  rw [select_zone_attempt1, List.mem_filter] at ha
  obtain ⟨ha1, ha2⟩ := ha
  rw [Bool.and_eq_true] at ha2
  refine ⟨a, ?_, rfl⟩
  rw [select_zone_attempt3, List.mem_filter]
  exact ⟨ha1, ha2.2⟩

theorem attempt2_zone_sub (activities_per_zone : List ActivitiesPerZoneRow)
    (feasibleZones : List String) :
    ∀ z ∈ (select_zone_attempt2 activities_per_zone feasibleZones).map (fun a => a.zone),
      z ∈ (select_zone_attempt3 activities_per_zone feasibleZones).map (fun a => a.zone) := by
  intro z hz
  rw [List.mem_map] at hz ⊢
  obtain ⟨a, ha, rfl⟩ := hz
  rw [select_zone_attempt2, List.mem_filter] at ha
  obtain ⟨ha1, ha2⟩ := ha
  rw [Bool.and_eq_true] at ha2
  refine ⟨a, ?_, rfl⟩
  rw [select_zone_attempt3, List.mem_filter]
  exact ⟨ha1, ha2.2⟩

theorem attempt3_empty_implies (activities_per_zone : List ActivitiesPerZoneRow)
    (educationType : String) (feasibleZones : List String)
    (h3 : select_zone_attempt3 activities_per_zone feasibleZones = []) :
    select_zone_attempt1 activities_per_zone educationType feasibleZones = [] ∧
    select_zone_attempt2 activities_per_zone feasibleZones = [] := by
  rw [select_zone_attempt3, List.filter_eq_nil_iff] at h3
  constructor
  · rw [select_zone_attempt1, List.filter_eq_nil_iff]
    intro a ha hcontra
    rw [Bool.and_eq_true] at hcontra
    exact h3 a ha hcontra.2
  · rw [select_zone_attempt2, List.filter_eq_nil_iff]
    intro a ha hcontra
    rw [Bool.and_eq_true] at hcontra
    exact h3 a ha hcontra.2

theorem select_zone_cascade_isOk (educationType : String)
    (activities_per_zone : List ActivitiesPerZoneRow) (weighting : String)
    (feasibleZones : List String) (p1 p2 p3 : ℕ) :
    ∃ z, select_zone_cascade educationType activities_per_zone weighting feasibleZones
      p1 p2 p3 = .ok z := by
  rw [select_zone_cascade]
  split_ifs <;> exact ⟨_, rfl⟩

theorem select_zone_body_isOk (rowName : ℕ) (educationType : String)
    (possible_zones : List (ℕ × List (String × List String)))
    (activities_per_zone : List ActivitiesPerZoneRow) (weighting : String)
    (p1 p2 p3 : ℕ) :
    ∃ z, select_zone_body rowName educationType possible_zones activities_per_zone
      weighting p1 p2 p3 = .ok z := by
  rw [select_zone_body]
  cases hlk : alistLookup possible_zones rowName with
  | none => exact ⟨"NA", rfl⟩
  | some innerDict =>
    rw [Option.elim_some]
    cases hm : (innerDict.map (fun e => e.2)).head? with
    | none => exact ⟨"NA", rfl⟩
    | some feasibleZones =>
      rw [Option.elim_some]
      exact select_zone_cascade_isOk educationType activities_per_zone weighting
        feasibleZones p1 p2 p3

theorem select_zone_eq_cascade (rowName : ℕ) (educationType : String)
    (possible_zones : List (ℕ × List (String × List String)))
    (activities_per_zone : List ActivitiesPerZoneRow) (weighting : String)
    (p1 p2 p3 : ℕ) (innerDict : List (String × List String))
    (feasibleZones : List String) (rest : List (List String))
    (hw : weighting ∈ allowed_weightings)
    (hlk : alistLookup possible_zones rowName = some innerDict)
    (hvals : innerDict.map (fun e => e.2) = feasibleZones :: rest) :
    select_zone rowName educationType possible_zones activities_per_zone weighting
        p1 p2 p3 =
      select_zone_cascade educationType activities_per_zone weighting feasibleZones
        p1 p2 p3 := by
  rw [select_zone, if_pos hw, select_zone_body, hlk, Option.elim_some, hvals,
    List.head?_cons, Option.elim_some]

/-- C10: select_zone yields the invalid-weighting error exactly when the
weighting argument is outside the allowed set; the validation runs before
any other processing, so an invalid weighting errors for every row and a
valid weighting never errors. -/
theorem select_zone_weighting_validation (rowName : ℕ) (educationType : String)
    (possible_zones : List (ℕ × List (String × List String)))
    (activities_per_zone : List ActivitiesPerZoneRow) (weighting : String)
    (p1 p2 p3 : ℕ) :
    select_zone rowName educationType possible_zones activities_per_zone weighting
        p1 p2 p3 = Except.error (invalid_weighting_message weighting) ↔
      weighting ∉ allowed_weightings := by
  rw [select_zone]
  by_cases hw : weighting ∈ allowed_weightings
  · rw [if_pos hw]
    constructor
    · intro h
      obtain ⟨z, hz⟩ := select_zone_body_isOk rowName educationType possible_zones
        activities_per_zone weighting p1 p2 p3
      rw [hz] at h
      exact Except.noConfusion h
    · intro hcon
      exact absurd hw hcon
  · rw [if_neg hw]
    simp [hw]

/-- C5: for an activity whose possible-zones entry exists and has a first
origin entry, select_zone runs the three relaxation attempts in order,
sampling a zone from the first non-empty attempt, and yields the sentinel
exactly when even the third attempt (feasible zones regardless of category)
is empty, provided no real zone is named by the sentinel string. -/
theorem select_zone_cascade_order (rowName : ℕ) (educationType : String)
    (possible_zones : List (ℕ × List (String × List String)))
    (activities_per_zone : List ActivitiesPerZoneRow) (weighting : String)
    (p1 p2 p3 : ℕ) (innerDict : List (String × List String))
    (feasibleZones : List String) (rest : List (List String))
    (hw : weighting ∈ allowed_weightings)
    (hlk : alistLookup possible_zones rowName = some innerDict)
    (hvals : innerDict.map (fun e => e.2) = feasibleZones :: rest)
    (hNA : "NA" ∉ (select_zone_attempt3 activities_per_zone feasibleZones).map
      (fun a => a.zone)) :
    (select_zone_attempt1 activities_per_zone educationType feasibleZones ≠ [] →
      ∃ z ∈ (select_zone_attempt1 activities_per_zone educationType feasibleZones).map
          (fun a => a.zone),
        select_zone rowName educationType possible_zones activities_per_zone weighting
          p1 p2 p3 = .ok z) ∧
    (select_zone_attempt1 activities_per_zone educationType feasibleZones = [] →
      select_zone_attempt2 activities_per_zone feasibleZones ≠ [] →
      ∃ z ∈ (select_zone_attempt2 activities_per_zone feasibleZones).map
          (fun a => a.zone),
        select_zone rowName educationType possible_zones activities_per_zone weighting
          p1 p2 p3 = .ok z) ∧
    (select_zone_attempt1 activities_per_zone educationType feasibleZones = [] →
      select_zone_attempt2 activities_per_zone feasibleZones = [] →
      select_zone_attempt3 activities_per_zone feasibleZones ≠ [] →
      ∃ z ∈ (select_zone_attempt3 activities_per_zone feasibleZones).map
          (fun a => a.zone),
        select_zone rowName educationType possible_zones activities_per_zone weighting
          p1 p2 p3 = .ok z) ∧
    (select_zone rowName educationType possible_zones activities_per_zone weighting
        p1 p2 p3 = .ok "NA" ↔
      select_zone_attempt3 activities_per_zone feasibleZones = []) := by
  rw [select_zone_eq_cascade rowName educationType possible_zones activities_per_zone
    weighting p1 p2 p3 innerDict feasibleZones rest hw hlk hvals]
  refine ⟨?_, ?_, ?_, ?_⟩
  · intro h1
    have hc1 : ¬(select_zone_attempt1 activities_per_zone educationType
        feasibleZones).isEmpty = true := by
      intro hc; rw [List.isEmpty_iff] at hc; exact h1 hc
    rw [select_zone_cascade, if_neg hc1]
    exact ⟨_, sampleZone_mem weighting _ p1 p2 p3 h1, rfl⟩
  · intro h1 h2
    have hc1 : (select_zone_attempt1 activities_per_zone educationType
        feasibleZones).isEmpty = true := by
      rw [List.isEmpty_iff]; exact h1
    have hc2 : ¬(select_zone_attempt2 activities_per_zone feasibleZones).isEmpty = true := by
      intro hc; rw [List.isEmpty_iff] at hc; exact h2 hc
    rw [select_zone_cascade, if_pos hc1, if_neg hc2]
    exact ⟨_, sampleZone_mem weighting _ p1 p2 p3 h2, rfl⟩
  · intro h1 h2 h3
    have hc1 : (select_zone_attempt1 activities_per_zone educationType
        feasibleZones).isEmpty = true := by
      rw [List.isEmpty_iff]; exact h1
    have hc2 : (select_zone_attempt2 activities_per_zone feasibleZones).isEmpty = true := by
      rw [List.isEmpty_iff]; exact h2
    have hc3 : ¬(select_zone_attempt3 activities_per_zone feasibleZones).isEmpty = true := by
      intro hc; rw [List.isEmpty_iff] at hc; exact h3 hc
    rw [select_zone_cascade, if_pos hc1, if_pos hc2, if_neg hc3]
    exact ⟨_, sampleZone_mem weighting _ p1 p2 p3 h3, rfl⟩
  · constructor
    · intro hok
      by_cases h3 : select_zone_attempt3 activities_per_zone feasibleZones = []
      · exact h3
      · exfalso
        rw [select_zone_cascade] at hok
        have hc3 : ¬(select_zone_attempt3 activities_per_zone
            feasibleZones).isEmpty = true := by
          intro hc; rw [List.isEmpty_iff] at hc; exact h3 hc
        by_cases hc1 : (select_zone_attempt1 activities_per_zone educationType
            feasibleZones).isEmpty = true
        · rw [if_pos hc1] at hok
          by_cases hc2 : (select_zone_attempt2 activities_per_zone
              feasibleZones).isEmpty = true
          · rw [if_pos hc2, if_neg hc3] at hok
            injection hok with hok
            have h3ne : select_zone_attempt3 activities_per_zone feasibleZones ≠ [] := h3
            have := sampleZone_mem weighting _ p1 p2 p3 h3ne
            rw [hok] at this
            exact hNA this
          · rw [if_neg hc2] at hok
            injection hok with hok
            have h2ne : select_zone_attempt2 activities_per_zone feasibleZones ≠ [] := by
              intro hc; rw [← List.isEmpty_iff] at hc; exact hc2 hc
            have := attempt2_zone_sub activities_per_zone feasibleZones _
              (sampleZone_mem weighting _ p1 p2 p3 h2ne)
            rw [hok] at this
            exact hNA this
        · rw [if_neg hc1] at hok
          injection hok with hok
          have h1ne : select_zone_attempt1 activities_per_zone educationType
              feasibleZones ≠ [] := by
            intro hc; rw [← List.isEmpty_iff] at hc; exact hc1 hc
          have := attempt1_zone_sub activities_per_zone educationType feasibleZones _
            (sampleZone_mem weighting _ p1 p2 p3 h1ne)
          rw [hok] at this
          exact hNA this
    · intro h3
      obtain ⟨h1, h2⟩ := attempt3_empty_implies activities_per_zone educationType
        feasibleZones h3
      rw [select_zone_cascade, if_pos (by rw [List.isEmpty_iff]; exact h1),
        if_pos (by rw [List.isEmpty_iff]; exact h2),
        if_pos (by rw [List.isEmpty_iff]; exact h3)]

/-- C5 (witness): concrete activity whose first attempt already succeeds,
with the sampled zone drawn from the first attempt. -/
theorem select_zone_cascade_order_witness :
    ∃ z ∈ (select_zone_attempt1 [⟨"Z1", 1, 1, "education_school"⟩]
        "education_school" ["Z1"]).map (fun a => a.zone),
      select_zone 7 "education_school" [(7, [("O", ["Z1"])])]
        [⟨"Z1", 1, 1, "education_school"⟩] "none" 0 0 0 = .ok z :=
  (select_zone_cascade_order 7 "education_school" [(7, [("O", ["Z1"])])]
    [⟨"Z1", 1, 1, "education_school"⟩] "none" 0 0 0 [("O", ["Z1"])] ["Z1"] []
    (by decide) (by decide) (by decide) (by decide)).1 (by decide)

/-! ## Lemmas on the estimate fallback -/

theorem beq_comm_str (s t : String) : (s == t) = (t == s) := by
  rw [Bool.eq_iff_iff, beq_iff_eq, beq_iff_eq]
  exact eq_comm

theorem toZones_contains_eq (activities_per_zone : List ActivitiesPerZoneRow)
    (purpose z : String) :
    ((filtered_activities_per_zone activities_per_zone purpose).map
        (fun a => a.zone)).contains z =
      activities_per_zone.any (fun a => a.activity == purpose && a.zone == z) := by
  induction activities_per_zone with
  | nil => rfl
  | cons a rest ih =>
    show ((List.filter (fun a => a.activity == purpose) (a :: rest)).map
      (fun a => a.zone)).contains z = _
    rw [List.filter_cons, List.any_cons]
    by_cases ha : (a.activity == purpose) = true
    · rw [if_pos ha, ha, Bool.true_and, List.map_cons, List.contains_cons]
      rw [show ((List.filter (fun a => a.activity == purpose) rest).map
        (fun a => a.zone)).contains z = rest.any
          (fun a => a.activity == purpose && a.zone == z) from ih]
      rw [beq_comm_str z a.zone]
    · have ha2 : (a.activity == purpose) = false := by
        cases hb : (a.activity == purpose)
        · rfl
        · exact absurd hb ha
      rw [if_neg ha, ha2, Bool.false_and, Bool.false_or]
      exact ih

theorem fill_missing_filter_eq (activity : ActivityRow)
    (travel_times_est : EstimatedTimes)
    (activities_per_zone : List ActivitiesPerZoneRow) :
    filtered_estimated_times travel_times_est activity.originZone
        ((filtered_activities_per_zone activities_per_zone activity.purpose).map
          (fun a => a.zone)) =
      travel_times_est.filter (fun it => it.1.1 == activity.originZone &&
        activities_per_zone.any (fun a =>
          a.activity == activity.purpose && a.zone == it.1.2)) := by
  rw [filtered_estimated_times]
  apply List.filter_congr
  intro it _
  rw [toZones_contains_eq]

/-- C6: the embedded fill_missing_zones agrees with the reference
definition written from the specification wording: among supply zones
matching the activity category that have an estimated-time entry from the
origin, it returns the destination minimizing the absolute difference
between the (mode-specific or average) estimate and the reported time, with
ties broken by iteration order; being a function of its inputs it is
deterministic. -/
theorem fill_missing_zones_eq_spec (activity : ActivityRow)
    (travel_times_est : EstimatedTimes)
    (activities_per_zone : List ActivitiesPerZoneRow) (use_mode : Bool)
    (hmode : use_mode = true → activity.mode ∈ acceptable_modes) :
    ∀ z, fill_missing_zones activity travel_times_est activities_per_zone use_mode =
        .ok z ↔
      fill_missing_zones_spec activity travel_times_est activities_per_zone use_mode =
        some z := by
  intro z
  rw [fill_missing_zones, fill_missing_zones_spec]
  cases use_mode with
  | false =>
    rw [if_neg Bool.false_ne_true]
    show closestZoneBy (fun est => est.timeAverage) activity.tripTotalTime
        (filtered_estimated_times travel_times_est activity.originZone
          ((filtered_activities_per_zone activities_per_zone activity.purpose).map
            (fun a => a.zone))) = .ok z ↔ _
    rw [fill_missing_filter_eq]
    cases hf : travel_times_est.filter (fun it => it.1.1 == activity.originZone &&
        activities_per_zone.any (fun a =>
          a.activity == activity.purpose && a.zone == it.1.2)) with
    | nil => simp [closestZoneBy]
    | cons e rest => simp [closestZoneBy]
  | true =>
    rw [if_pos rfl]
    show _get_zones_using_time_estimate travel_times_est activity.originZone
        ((filtered_activities_per_zone activities_per_zone activity.purpose).map
          (fun a => a.zone)) activity.tripTotalTime (some activity.mode) = .ok z ↔ _
    rw [_get_zones_using_time_estimate, if_pos (hmode rfl), fill_missing_filter_eq]
    cases hf : travel_times_est.filter (fun it => it.1.1 == activity.originZone &&
        activities_per_zone.any (fun a =>
          a.activity == activity.purpose && a.zone == it.1.2)) with
    | nil => simp [closestZoneBy]
    | cons e rest => simp [closestZoneBy, timeForMode]

/-- C6 (witness): concrete instance in which the closer of two candidate
destinations is chosen, matching the reference definition. -/
theorem fill_missing_zones_eq_spec_witness :
    fill_missing_zones ⟨10, "A", "education_school", "car"⟩
        [(("A", "B"), ⟨1, 1, 1, 1, 30⟩), (("A", "C"), ⟨1, 1, 1, 1, 12⟩)]
        [⟨"B", 1, 1, "education_school"⟩, ⟨"C", 1, 1, "education_school"⟩] false =
      .ok "C" ↔
    fill_missing_zones_spec ⟨10, "A", "education_school", "car"⟩
        [(("A", "B"), ⟨1, 1, 1, 1, 30⟩), (("A", "C"), ⟨1, 1, 1, 1, 12⟩)]
        [⟨"B", 1, 1, "education_school"⟩, ⟨"C", 1, 1, "education_school"⟩] false =
      some "C" :=
  fill_missing_zones_eq_spec ⟨10, "A", "education_school", "car"⟩
    [(("A", "B"), ⟨1, 1, 1, 1, 30⟩), (("A", "C"), ⟨1, 1, 1, 1, 12⟩)]
    [⟨"B", 1, 1, "education_school"⟩, ⟨"C", 1, 1, "education_school"⟩] false
    (fun h => Bool.noConfusion h) "C"

/-- C7 (code evaluation at the failing input): with no estimated-time entry
from the origin to any category-matching supply zone, the embedded
fill_missing_zones surfaces the exception python min raises on an empty
sequence instead of returning a sentinel. -/
theorem fill_missing_zones_empty_raises :
    fill_missing_zones ⟨10, "A", "education_school", "car"⟩ [] [] false =
      .error emptyMinMessage := rfl

/-! ## Lemmas on facility selection -/

theorem facilitySample_mem (l : List FacilityRow) (sampleCol : Option String)
    (pick : ℕ) (h : l ≠ []) : facilitySample l sampleCol pick ∈ l := by
  rw [facilitySample]
  have hlen : pick % l.length < l.length := Nat.mod_lt _ (List.length_pos.mpr h)
  split_ifs <;>
  · rw [List.getD_eq_getElem?_getD, List.getElem?_eq_getElem hlen]
    exact List.getElem_mem hlen

/-- C9: when the destination zone of a row is present but contains no
facility matching the activity type, neighboring zones were provided, and
some facility in a neighboring zone of the destination matches the type,
select_facility returns such a facility, regardless of the fallback type,
the random fallback and the sampling column. -/
theorem select_facility_neighbor_fallback (dz activityType : String)
    (facilities_gdf : List FacilityRow) (fallbackType : Option String)
    (fallback_to_random : Bool) (neighboring_zones : List (String × List String))
    (sampleCol : Option String) (pick : ℕ) (neighbors : List String)
    (hzone : facilities_valid_step1 facilities_gdf dz activityType = [])
    (hnz : neighboring_zones ≠ [])
    (hlk : alistLookup neighboring_zones dz = some neighbors)
    (hex : ∃ f ∈ facilities_gdf, neighbors.contains f.zone = true ∧
      f.types.contains activityType = true) :
    ∃ f ∈ facilities_gdf, neighbors.contains f.zone = true ∧
      f.types.contains activityType = true ∧
      select_facility (some dz) activityType facilities_gdf fallbackType
        fallback_to_random neighboring_zones sampleCol pick = some (f.id, f.geometry) := by
  have hcond : ((facilities_valid_step1 facilities_gdf dz activityType).isEmpty &&
      !neighboring_zones.isEmpty) = true := by
    rw [hzone]
    rw [Bool.and_eq_true]
    refine ⟨rfl, ?_⟩
    cases hn : neighboring_zones.isEmpty
    · rfl
    · rw [List.isEmpty_iff] at hn
      exact absurd hn hnz
  have hstep2 : facilities_valid_step2 facilities_gdf dz activityType neighboring_zones =
      facilities_matching_type
        (facilities_gdf.filter (fun f => neighbors.contains f.zone)) activityType := by
    rw [facilities_valid_step2, if_pos hcond, hlk]
    rfl
  obtain ⟨f0, hf0mem, hf0z, hf0t⟩ := hex
  have hf0in : f0 ∈ facilities_valid_step2 facilities_gdf dz activityType
      neighboring_zones := by
    rw [hstep2, facilities_matching_type, List.mem_filter]
    refine ⟨?_, hf0t⟩
    rw [List.mem_filter]
    exact ⟨hf0mem, hf0z⟩
  have hstep2ne : facilities_valid_step2 facilities_gdf dz activityType
      neighboring_zones ≠ [] := by
    intro hc
    rw [hc] at hf0in
    cases hf0in
  have hstep3 : facilities_valid_step3 facilities_gdf dz activityType neighboring_zones
      fallbackType = facilities_valid_step2 facilities_gdf dz activityType
        neighboring_zones := by
    rw [facilities_valid_step3.eq_def, if_neg]
    intro hc
    rw [List.isEmpty_iff] at hc
    exact hstep2ne hc
  have hstep4 : facilities_valid_step4 facilities_gdf dz activityType neighboring_zones
      fallbackType fallback_to_random = facilities_valid_step2 facilities_gdf dz
        activityType neighboring_zones := by
    rw [facilities_valid_step4, hstep3, if_neg]
    intro hc
    rw [Bool.and_eq_true, List.isEmpty_iff] at hc
    exact hstep2ne hc.1
  set s := facilitySample (facilities_valid_step4 facilities_gdf dz activityType
    neighboring_zones fallbackType fallback_to_random) sampleCol pick with hs
  have hsamp : s ∈ facilities_valid_step4 facilities_gdf dz activityType
      neighboring_zones fallbackType fallback_to_random :=
    facilitySample_mem _ sampleCol pick (by rw [hstep4]; exact hstep2ne)
  rw [hstep4, hstep2, facilities_matching_type, List.mem_filter] at hsamp
  obtain ⟨hsampz, hsampt⟩ := hsamp
  rw [List.mem_filter] at hsampz
  refine ⟨s, hsampz.1, hsampz.2, hsampt, ?_⟩
  show (if (facilities_valid_step4 facilities_gdf dz activityType neighboring_zones
      fallbackType fallback_to_random).isEmpty then none
    else some (s.id, s.geometry)) = some (s.id, s.geometry)
  rw [if_neg]
  intro hc
  rw [List.isEmpty_iff, hstep4] at hc
  exact hstep2ne hc

/-- C9 (witness): concrete instance with an empty destination zone and one
matching facility in its neighboring zone. -/
theorem select_facility_neighbor_fallback_witness :
    ∃ f ∈ [(⟨1, "g1", "N1", ["work"], 0⟩ : FacilityRow)],
      (["N1"] : List String).contains f.zone = true ∧
      f.types.contains "work" = true ∧
      select_facility (some "D") "work" [⟨1, "g1", "N1", ["work"], 0⟩] none false
        [("D", ["N1"])] none 0 = some (f.id, f.geometry) :=
  select_facility_neighbor_fallback "D" "work" [⟨1, "g1", "N1", ["work"], 0⟩] none
    false [("D", ["N1"])] none 0 ["N1"] (by decide) (by decide) (by decide)
    ⟨⟨1, "g1", "N1", ["work"], 0⟩, by decide, by decide, by decide⟩

end Acbm
